import Mathlib

/-!
Shallow embedding of the physics integration engine of
`MondraDeveloper_clipboard.py` (inclined-rail sphere simulation).

The Python program keeps its simulation state in module-level globals and
advances it once per iteration of the `while True:` render loop.  We embed:

* the externally mutable configuration globals (`angle`, `angle_rad`,
  `rail_length`, `g`, `mass`, `initial_velocity`) as a `Config` record;
* the engine-owned globals (`t`, `elapsed_time`, `last_record_time`,
  `speed`, `s`, `drag_loss`, `friction_loss`, `running`, the force
  telemetry globals and the fifteen parallel data arrays) as a `SimState`
  record;
* one iteration of the loop body (the physics part; rendering and label
  updates are presentation only) as the function `tick`;
* the UI callbacks `update_angle`, `update_length`, `update_gravity`,
  `update_mass`, `update_initial_velocity`, `reset_simulation` and
  `toggle_running` as functions on `Config × SimState`.

Python floats are idealised as real numbers; `round(x, n)` is modelled by
`pyround` (ties rounded half-up rather than half-even; no claim below
depends on a tie).
-/

namespace IncRail

/-- Sphere radius in meters (`ball_radius = 0.1`, line 86). -/
noncomputable def ball_radius : ℝ := 0.1

/-- Integration time step in seconds (`dt = 0.0025`, line 95). -/
noncomputable def dt : ℝ := 0.0025

/-- Air density (`rho_air = 1.225`, line 107). -/
noncomputable def rho_air : ℝ := 1.225

/-- Drag coefficient of a sphere (`Cd_sphere = 0.47`, line 108). -/
noncomputable def Cd_sphere : ℝ := 0.47

/-- Cross-sectional area (`area_cross = pi * ball_radius**2`, line 109). -/
noncomputable def area_cross : ℝ := Real.pi * ball_radius ^ 2

/-- Friction coefficient (`mu_sa = 0.2`, line 110). -/
noncomputable def mu_sa : ℝ := 0.2

/-- Sphere volume (`volume = 4/3 * pi * ball_radius**3`, line 111). -/
noncomputable def volume : ℝ := 4 / 3 * Real.pi * ball_radius ^ 3

/-- Value of the `mass` global at module load time (`mass = 1`, line 94). -/
noncomputable def mass0 : ℝ := 1

/-- Sphere density (`rho_sphere = mass / volume`, line 112).  This is
evaluated once at module load, when `mass = 1`; no callback ever
recomputes it, so it stays `mass0 / volume` for the whole session even
after the mass slider changes `mass`. -/
noncomputable def rho_sphere : ℝ := mass0 / volume

/-- Degree-to-radian conversion (`radians(angle)` from vpython). -/
noncomputable def radians (x : ℝ) : ℝ := x * Real.pi / 180

/-- The externally mutable configuration globals read by the loop body.
`angle_rad` is a separate global in the source, recomputed from `angle`
by `update_simulation` (line 207) whenever a geometry-affecting callback
runs. -/
structure Config where
  angle : ℝ
  angle_rad : ℝ
  rail_length : ℝ
  g : ℝ
  mass : ℝ
  initial_velocity : ℝ

/-- The engine-owned simulation globals: scalars plus the fifteen parallel
data arrays (lines 85-118, 382-386). -/
structure SimState where
  t : ℝ
  elapsed_time : ℝ
  last_record_time : ℝ
  speed : ℝ
  s : ℝ
  drag_loss : ℝ
  friction_loss : ℝ
  running : Bool
  Fg_par : ℝ
  F_fric : ℝ
  F_drag : ℝ
  acceleration : ℝ
  times : List ℝ
  heights : List ℝ
  speeds : List ℝ
  gravities : List ℝ
  forces_g : List ℝ
  forces_f : List ℝ
  forces_d : List ℝ
  accelerations : List ℝ
  energies_pe : List ℝ
  energies_ke : List ℝ
  energies_te : List ℝ
  friction_losses : List ℝ
  drag_losses : List ℝ
  h_speeds : List ℝ
  v_speeds : List ℝ

/-- Python `round(x, n)`: round to `n` decimal places (ties modelled
half-up; Python rounds ties to even, a difference no claim touches). -/
noncomputable def pyround (x : ℝ) (n : ℕ) : ℝ := (round (x * 10 ^ n) : ℤ) / 10 ^ n

/-- Effective gravity `g_eff = g * (1 - rho_air / rho_sphere)` (line 556).
Note `rho_sphere` is the module-load constant, not a function of the
current mass. -/
noncomputable def g_eff (cfg : Config) : ℝ := cfg.g * (1 - rho_air / rho_sphere)

/-- Gravity component along the slope, `Fg_par = mass * g_eff * sin(angle_rad)`
(line 559). -/
noncomputable def Fg_par_of (cfg : Config) : ℝ := cfg.mass * g_eff cfg * Real.sin cfg.angle_rad

/-- Normal force `N = mass * g_eff * cos(angle_rad)` (line 563). -/
noncomputable def N_of (cfg : Config) : ℝ := cfg.mass * g_eff cfg * Real.cos cfg.angle_rad

/-- Dry friction `F_fric = mu_sa * N if angle < 90 else 0` (line 564). -/
noncomputable def F_fric_of (cfg : Config) : ℝ := if cfg.angle < 90 then mu_sa * N_of cfg else 0

/-- Air drag `F_drag = 0.5 * rho_air * Cd_sphere * area_cross * speed**2`
(line 568). -/
noncomputable def F_drag_of (speed : ℝ) : ℝ := 0.5 * rho_air * Cd_sphere * area_cross * speed ^ 2

/-- Acceleration from the net force, `(Fg_par - F_fric - F_drag) / mass`
(lines 580-581). -/
noncomputable def acceleration_of (cfg : Config) (st : SimState) : ℝ :=
  (Fg_par_of cfg - F_fric_of cfg - F_drag_of st.speed) / cfg.mass

/-- Velocity update with the non-negativity clamp
(`speed += acceleration * dt; if speed < 0: speed = 0`, lines 585-587). -/
noncomputable def step_speed (cfg : Config) (st : SimState) : ℝ :=
  if st.speed + acceleration_of cfg st * dt < 0 then 0
  else st.speed + acceleration_of cfg st * dt

/-- Position update `s += speed * dt` (line 590), using the post-clamp speed. -/
noncomputable def step_s (cfg : Config) (st : SimState) : ℝ :=
  st.s + step_speed cfg st * dt

/-- Regular sampling block (lines 632-674): recompute height and the
energy/velocity readouts, and append one row to every data array when
`elapsed_time - last_record_time >= 0.1`, updating `last_record_time`. -/
noncomputable def recordRegular (cfg : Config) (st : SimState) : SimState :=
  let height := max (cfg.rail_length - st.s) 0 * Real.sin cfg.angle_rad
  let PE := cfg.mass * cfg.g * height
  let KE := 0.5 * cfg.mass * st.speed ^ 2
  let TE := PE + KE
  let H_speed := st.speed * Real.cos cfg.angle_rad
  let V_speed := st.speed * Real.sin cfg.angle_rad
  if st.elapsed_time - st.last_record_time ≥ 0.1 then
    { st with
      times := st.times ++ [pyround st.elapsed_time 1]
      heights := st.heights ++ [pyround height 2]
      speeds := st.speeds ++ [pyround st.speed 2]
      gravities := st.gravities ++ [cfg.g]
      forces_g := st.forces_g ++ [pyround st.Fg_par 2]
      forces_f := st.forces_f ++ [pyround st.F_fric 2]
      forces_d := st.forces_d ++ [pyround st.F_drag 2]
      accelerations := st.accelerations ++ [pyround st.acceleration 2]
      energies_pe := st.energies_pe ++ [pyround PE 2]
      energies_ke := st.energies_ke ++ [pyround KE 2]
      energies_te := st.energies_te ++ [pyround TE 2]
      friction_losses := st.friction_losses ++ [pyround st.friction_loss 2]
      drag_losses := st.drag_losses ++ [pyround st.drag_loss 2]
      h_speeds := st.h_speeds ++ [pyround H_speed 2]
      v_speeds := st.v_speeds ++ [pyround V_speed 2]
      last_record_time := st.elapsed_time }
  else st

/-- Forced terminal record at the end of the rail (lines 605-624): append
a final row with height 0 and PE 0 unless the last recorded time already
reaches `round(elapsed_time + dt, 2)`. -/
noncomputable def recordTerminal (cfg : Config) (st : SimState) : SimState :=
  let final_time := pyround (st.elapsed_time + dt) 2
  if st.times = [] ∨ st.times.getLastD 0 < final_time then
    { st with
      times := st.times ++ [final_time]
      heights := st.heights ++ [0]
      speeds := st.speeds ++ [pyround st.speed 2]
      gravities := st.gravities ++ [cfg.g]
      forces_g := st.forces_g ++ [pyround st.Fg_par 2]
      forces_f := st.forces_f ++ [pyround st.F_fric 2]
      forces_d := st.forces_d ++ [pyround st.F_drag 2]
      accelerations := st.accelerations ++ [pyround st.acceleration 2]
      energies_pe := st.energies_pe ++ [0]
      energies_ke := st.energies_ke ++ [pyround (0.5 * cfg.mass * st.speed ^ 2) 2]
      energies_te := st.energies_te ++ [pyround (0.5 * cfg.mass * st.speed ^ 2) 2]
      friction_losses := st.friction_losses ++ [pyround st.friction_loss 2]
      drag_losses := st.drag_losses ++ [pyround st.drag_loss 2]
      h_speeds := st.h_speeds ++ [pyround (st.speed * Real.cos cfg.angle_rad) 2]
      v_speeds := st.v_speeds ++ [pyround (st.speed * Real.sin cfg.angle_rad) 2] }
  else st

/-- One iteration of the `while True:` loop body (lines 546-674), physics
part only.  A paused iteration (`if not running: continue`) leaves the
state untouched.  Otherwise forces are computed from the start-of-step
speed, losses accumulated, speed and position integrated, and then either
the in-rail branch (`s <= rail_length`: advance `t` and `elapsed_time`)
or the boundary branch (`else`: set `running = False` and force a
terminal record — note that `s` itself is not reassigned) is taken,
followed in both cases by the regular sampling block. -/
noncomputable def tick (cfg : Config) (st : SimState) : SimState :=
  if st.running then
    let stepped : SimState :=
      { st with
        Fg_par := Fg_par_of cfg
        F_fric := F_fric_of cfg
        F_drag := F_drag_of st.speed
        acceleration := acceleration_of cfg st
        drag_loss := st.drag_loss + F_drag_of st.speed * st.speed * dt
        friction_loss := st.friction_loss + F_fric_of cfg * st.speed * dt
        speed := step_speed cfg st
        s := step_s cfg st }
    if step_s cfg st ≤ cfg.rail_length then
      recordRegular cfg { stepped with t := st.t + dt, elapsed_time := st.t + dt }
    else
      recordRegular cfg (recordTerminal cfg { stepped with running := false })
  else st

/-- Callback `reset_simulation` (lines 285-330): zero the time, position, speed and
loss globals, reinstall the initial velocity, reset `last_record_time`
to `-0.1`, zero the force telemetry globals and clear every data array.
The `running` global is named in the `global` statement but never
assigned, so it keeps its previous value. -/
noncomputable def reset_simulation (cfg : Config) (st : SimState) : SimState :=
  { st with
    t := 0
    s := 0
    elapsed_time := 0
    speed := cfg.initial_velocity
    drag_loss := 0
    friction_loss := 0
    last_record_time := -0.1
    Fg_par := 0
    F_fric := 0
    F_drag := 0
    acceleration := 0
    times := []
    heights := []
    speeds := []
    gravities := []
    forces_g := []
    forces_f := []
    forces_d := []
    accelerations := []
    energies_pe := []
    energies_ke := []
    energies_te := []
    friction_losses := []
    drag_losses := []
    h_speeds := []
    v_speeds := [] }

/-- Callback `toggle_running` (lines 333-349): flip the `running` flag. -/
def toggle_running (st : SimState) : SimState :=
  { st with running := !st.running }

/-- Callback `update_angle` (lines 225-235): store the slider value in `angle` and
recompute `angle_rad` via `update_simulation`; the simulation state
globals are untouched (only the rail/ball visuals move). -/
noncomputable def update_angle (v : ℝ) (cfg : Config) (st : SimState) : Config × SimState :=
  ({ cfg with angle := v, angle_rad := radians v }, st)

/-- Callback `update_length` (lines 237-247): store the slider value in
`rail_length` and rerun `update_simulation` (which recomputes `angle_rad`
from the unchanged `angle`); simulation state untouched. -/
noncomputable def update_length (v : ℝ) (cfg : Config) (st : SimState) : Config × SimState :=
  ({ cfg with rail_length := v, angle_rad := radians cfg.angle }, st)

/-- Callback `update_gravity` (lines 249-258): store the slider value in `g`;
nothing else changes (it does not call `update_simulation`). -/
noncomputable def update_gravity (v : ℝ) (cfg : Config) (st : SimState) : Config × SimState :=
  ({ cfg with g := v }, st)

/-- Callback `update_mass` (lines 260-270): store the slider value in `mass` and
rerun `update_simulation`; note `rho_sphere` is not recomputed and the
simulation state is untouched. -/
noncomputable def update_mass (v : ℝ) (cfg : Config) (st : SimState) : Config × SimState :=
  ({ cfg with mass := v, angle_rad := radians cfg.angle }, st)

/-- Callback `update_initial_velocity` (lines 272-283): store the slider value in
`initial_velocity` AND assign the live `speed` global to it (`speed =
initial_velocity`, line 281), then rerun `update_simulation`. -/
noncomputable def update_initial_velocity (v : ℝ) (cfg : Config) (st : SimState) :
    Config × SimState :=
  ({ cfg with initial_velocity := v, angle_rad := radians cfg.angle }, { st with speed := v })

/-- Configuration globals at module load (lines 85-98, 145). -/
noncomputable def initConfig : Config :=
  { angle := 30
    angle_rad := radians 30
    rail_length := 10
    g := 9.81
    mass := 1
    initial_velocity := 0 }

/-- Simulation globals at module load (lines 90-101, 118, 382-386).  The
force telemetry globals are first assigned inside `reset_simulation` or
the loop body; they are modelled as 0 initially. -/
noncomputable def initState : SimState :=
  { t := 0
    elapsed_time := 0
    last_record_time := -0.1
    speed := 0
    s := 0
    drag_loss := 0
    friction_loss := 0
    running := false
    Fg_par := 0
    F_fric := 0
    F_drag := 0
    acceleration := 0
    times := []
    heights := []
    speeds := []
    gravities := []
    forces_g := []
    forces_f := []
    forces_d := []
    accelerations := []
    energies_pe := []
    energies_ke := []
    energies_te := []
    friction_losses := []
    drag_losses := []
    h_speeds := []
    v_speeds := [] }

/-- Iterate the loop body `n` times under a fixed configuration. -/
noncomputable def run (cfg : Config) (st : SimState) : ℕ → SimState
  | 0 => st
  | n + 1 => tick cfg (run cfg st n)

/-- Modelled from the spec (section 4.2 step 1): the effective gravity the
spec prescribes, with the sphere density re-derived each tick from the
mass currently in effect: `g_eff = g * (1 - rho_air / (mass / volume))`.
Used only for comparison against the `g_eff` of the source. -/
noncomputable def g_eff_spec (cfg : Config) : ℝ :=
  cfg.g * (1 - rho_air / (cfg.mass / volume))

/-- Configuration after moving the mass slider to 2 kg on a vertical
rail: `rho_sphere` is not recomputed, so the buoyancy factor in the code
still uses the startup density. -/
noncomputable def cfgMass2 : Config :=
  { angle := 90
    angle_rad := radians 90
    rail_length := 10
    g := 9.81
    mass := 2
    initial_velocity := 0 }

/-- A vertical 1 m rail with a 100 kg sphere launched at the maximal
initial speed of 1000 m/s: the very first tick overshoots the rail end. -/
noncomputable def cfgFast : Config :=
  { angle := 90
    angle_rad := radians 90
    rail_length := 1
    g := 9.81
    mass := 100
    initial_velocity := 1000 }

/-- The state reached from `cfgFast` by pressing Reset and then Play. -/
noncomputable def stFast : SimState := toggle_running (reset_simulation cfgFast initState)

/-- A horizontal configuration under which a run never terminates (used
as a concrete sampling-cadence scenario). -/
noncomputable def cfgFlat : Config :=
  { angle := 0
    angle_rad := radians 0
    rail_length := 10
    g := 9.81
    mass := 1
    initial_velocity := 0 }

end IncRail

namespace IncRail

/-! ### Projection lemmas for the two record blocks -/

@[simp] lemma recordRegular_speed (cfg : Config) (st : SimState) :
    (recordRegular cfg st).speed = st.speed := by
  simp only [recordRegular]; split <;> rfl

@[simp] lemma recordRegular_s (cfg : Config) (st : SimState) :
    (recordRegular cfg st).s = st.s := by
  simp only [recordRegular]; split <;> rfl

@[simp] lemma recordRegular_running (cfg : Config) (st : SimState) :
    (recordRegular cfg st).running = st.running := by
  simp only [recordRegular]; split <;> rfl

@[simp] lemma recordRegular_friction_loss (cfg : Config) (st : SimState) :
    (recordRegular cfg st).friction_loss = st.friction_loss := by
  simp only [recordRegular]; split <;> rfl

@[simp] lemma recordRegular_drag_loss (cfg : Config) (st : SimState) :
    (recordRegular cfg st).drag_loss = st.drag_loss := by
  simp only [recordRegular]; split <;> rfl

@[simp] lemma recordRegular_Fg_par (cfg : Config) (st : SimState) :
    (recordRegular cfg st).Fg_par = st.Fg_par := by
  simp only [recordRegular]; split <;> rfl

@[simp] lemma recordRegular_F_fric (cfg : Config) (st : SimState) :
    (recordRegular cfg st).F_fric = st.F_fric := by
  simp only [recordRegular]; split <;> rfl

@[simp] lemma recordRegular_t (cfg : Config) (st : SimState) :
    (recordRegular cfg st).t = st.t := by
  simp only [recordRegular]; split <;> rfl

@[simp] lemma recordRegular_elapsed (cfg : Config) (st : SimState) :
    (recordRegular cfg st).elapsed_time = st.elapsed_time := by
  simp only [recordRegular]; split <;> rfl

lemma recordRegular_last_record (cfg : Config) (st : SimState) :
    (recordRegular cfg st).last_record_time =
      if st.elapsed_time - st.last_record_time ≥ 0.1 then st.elapsed_time
      else st.last_record_time := by
  simp only [recordRegular]; split <;> simp_all

lemma recordRegular_times_length (cfg : Config) (st : SimState) :
    (recordRegular cfg st).times.length =
      if st.elapsed_time - st.last_record_time ≥ 0.1 then st.times.length + 1
      else st.times.length := by
  simp only [recordRegular]; split <;> simp_all

@[simp] lemma recordTerminal_speed (cfg : Config) (st : SimState) :
    (recordTerminal cfg st).speed = st.speed := by
  simp only [recordTerminal]; split <;> rfl

@[simp] lemma recordTerminal_s (cfg : Config) (st : SimState) :
    (recordTerminal cfg st).s = st.s := by
  simp only [recordTerminal]; split <;> rfl

@[simp] lemma recordTerminal_running (cfg : Config) (st : SimState) :
    (recordTerminal cfg st).running = st.running := by
  simp only [recordTerminal]; split <;> rfl

@[simp] lemma recordTerminal_friction_loss (cfg : Config) (st : SimState) :
    (recordTerminal cfg st).friction_loss = st.friction_loss := by
  simp only [recordTerminal]; split <;> rfl

@[simp] lemma recordTerminal_drag_loss (cfg : Config) (st : SimState) :
    (recordTerminal cfg st).drag_loss = st.drag_loss := by
  simp only [recordTerminal]; split <;> rfl

@[simp] lemma recordTerminal_Fg_par (cfg : Config) (st : SimState) :
    (recordTerminal cfg st).Fg_par = st.Fg_par := by
  simp only [recordTerminal]; split <;> rfl

@[simp] lemma recordTerminal_F_fric (cfg : Config) (st : SimState) :
    (recordTerminal cfg st).F_fric = st.F_fric := by
  simp only [recordTerminal]; split <;> rfl

@[simp] lemma recordTerminal_t (cfg : Config) (st : SimState) :
    (recordTerminal cfg st).t = st.t := by
  simp only [recordTerminal]; split <;> rfl

@[simp] lemma recordTerminal_elapsed (cfg : Config) (st : SimState) :
    (recordTerminal cfg st).elapsed_time = st.elapsed_time := by
  simp only [recordTerminal]; split <;> rfl

@[simp] lemma recordTerminal_last_record (cfg : Config) (st : SimState) :
    (recordTerminal cfg st).last_record_time = st.last_record_time := by
  simp only [recordTerminal]; split <;> rfl

/-! ### Projection lemmas for `tick` -/

lemma tick_of_not_running (cfg : Config) (st : SimState) (h : st.running = false) :
    tick cfg st = st := by
  simp only [tick, h]; rfl

lemma tick_speed (cfg : Config) (st : SimState) (h : st.running = true) :
    (tick cfg st).speed = step_speed cfg st := by
  simp only [tick, h, if_true]; split <;> simp

lemma tick_s (cfg : Config) (st : SimState) (h : st.running = true) :
    (tick cfg st).s = step_s cfg st := by
  simp only [tick, h, if_true]; split <;> simp

lemma tick_friction_loss (cfg : Config) (st : SimState) (h : st.running = true) :
    (tick cfg st).friction_loss = st.friction_loss + F_fric_of cfg * st.speed * dt := by
  simp only [tick, h, if_true]; split <;> simp

lemma tick_drag_loss (cfg : Config) (st : SimState) (h : st.running = true) :
    (tick cfg st).drag_loss = st.drag_loss + F_drag_of st.speed * st.speed * dt := by
  simp only [tick, h, if_true]; split <;> simp

lemma tick_Fg_par (cfg : Config) (st : SimState) (h : st.running = true) :
    (tick cfg st).Fg_par = Fg_par_of cfg := by
  simp only [tick, h, if_true]; split <;> simp

lemma tick_F_fric (cfg : Config) (st : SimState) (h : st.running = true) :
    (tick cfg st).F_fric = F_fric_of cfg := by
  simp only [tick, h, if_true]; split <;> simp

lemma tick_running_inbound (cfg : Config) (st : SimState) (h : st.running = true)
    (hs : step_s cfg st ≤ cfg.rail_length) :
    (tick cfg st).running = true := by
  simp only [tick, h, if_true, if_pos hs]; simp [h]

lemma tick_running_overshoot (cfg : Config) (st : SimState) (h : st.running = true)
    (hs : ¬ step_s cfg st ≤ cfg.rail_length) :
    (tick cfg st).running = false := by
  simp only [tick, h, if_true, if_neg hs]; simp

lemma tick_elapsed_inbound (cfg : Config) (st : SimState) (h : st.running = true)
    (hs : step_s cfg st ≤ cfg.rail_length) :
    (tick cfg st).elapsed_time = st.t + dt ∧ (tick cfg st).t = st.t + dt := by
  simp only [tick, h, if_true, if_pos hs]; simp

lemma tick_last_record_inbound (cfg : Config) (st : SimState) (h : st.running = true)
    (hs : step_s cfg st ≤ cfg.rail_length) :
    (tick cfg st).last_record_time =
      if st.t + dt - st.last_record_time ≥ 0.1 then st.t + dt
      else st.last_record_time := by
  simp only [tick, h, if_true, if_pos hs]
  rw [recordRegular_last_record]

lemma tick_times_length_inbound (cfg : Config) (st : SimState) (h : st.running = true)
    (hs : step_s cfg st ≤ cfg.rail_length) :
    (tick cfg st).times.length =
      if st.t + dt - st.last_record_time ≥ 0.1 then st.times.length + 1
      else st.times.length := by
  simp only [tick, h, if_true, if_pos hs]
  rw [recordRegular_times_length]

lemma running_of_tick (cfg : Config) (st : SimState)
    (h : (tick cfg st).running = true) : st.running = true := by
  by_cases hr : st.running = true
  · exact hr
  · rw [tick_of_not_running cfg st (by simpa using hr)] at h
    exact h

@[simp] lemma run_zero (cfg : Config) (st : SimState) : run cfg st 0 = st := rfl

@[simp] lemma run_succ (cfg : Config) (st : SimState) (n : ℕ) :
    run cfg st (n + 1) = tick cfg (run cfg st n) := rfl

lemma run_running_of_le (cfg : Config) (st : SimState) {k n : ℕ} (hkn : k ≤ n)
    (hn : (run cfg st n).running = true) : (run cfg st k).running = true := by
  induction n with
  | zero => cases Nat.le_zero.mp hkn; exact hn
  | succ n ih =>
    have hprev : (run cfg st n).running = true := running_of_tick _ _ (by simpa using hn)
    rcases Nat.lt_succ_iff_lt_or_eq.mp (Nat.lt_succ_of_le hkn) with hlt | heq
    · exact ih (Nat.le_of_lt_succ hlt) hprev
    · rw [heq]; exact hn

end IncRail

namespace IncRail

/-! ### Numeric facts about the physical constants -/

lemma volume_eq : volume = Real.pi / 750 := by
  unfold volume ball_radius; ring

lemma volume_pos : 0 < volume := by
  rw [volume_eq]; positivity

lemma rho_sphere_eq : rho_sphere = 750 / Real.pi := by
  unfold rho_sphere mass0
  rw [volume_eq, one_div_div]

lemma buoy_ratio_eq : rho_air / rho_sphere = 1.225 * Real.pi / 750 := by
  rw [rho_sphere_eq]
  unfold rho_air
  rw [div_div_eq_mul_div]

lemma buoy_ratio_lt_one : rho_air / rho_sphere < 1 := by
  rw [buoy_ratio_eq]
  nlinarith [Real.pi_lt_d2]

lemma buoy_ratio_pos : 0 < rho_air / rho_sphere := by
  rw [buoy_ratio_eq]; positivity

lemma g_eff_nonneg (cfg : Config) (hg : 0 ≤ cfg.g) : 0 ≤ g_eff cfg := by
  unfold g_eff
  exact mul_nonneg hg (by linarith [buoy_ratio_lt_one])

lemma radians_mem_Icc {a : ℝ} (h0 : 0 ≤ a) (h90 : a ≤ 90) :
    radians a ∈ Set.Icc (-(Real.pi / 2)) (Real.pi / 2) := by
  unfold radians
  constructor
  · nlinarith [Real.pi_pos]
  · nlinarith [Real.pi_pos]

lemma cos_radians_nonneg {a : ℝ} (h0 : 0 ≤ a) (h90 : a ≤ 90) :
    0 ≤ Real.cos (radians a) :=
  Real.cos_nonneg_of_mem_Icc (radians_mem_Icc h0 h90)

lemma F_drag_nonneg (v : ℝ) : 0 ≤ F_drag_of v := by
  unfold F_drag_of area_cross rho_air Cd_sphere ball_radius
  positivity

lemma F_fric_nonneg (cfg : Config) (hm : 0 ≤ cfg.mass) (hg : 0 ≤ cfg.g)
    (h0 : 0 ≤ cfg.angle) (h90 : cfg.angle ≤ 90)
    (hrad : cfg.angle_rad = radians cfg.angle) :
    0 ≤ F_fric_of cfg := by
  unfold F_fric_of
  split
  · have hge := g_eff_nonneg cfg hg
    have hc : 0 ≤ Real.cos cfg.angle_rad := hrad ▸ cos_radians_nonneg h0 h90
    unfold mu_sa N_of
    exact mul_nonneg (by norm_num) (mul_nonneg (mul_nonneg hm hge) hc)
  · exact le_rfl

lemma step_speed_nonneg (cfg : Config) (st : SimState) : 0 ≤ step_speed cfg st := by
  unfold step_speed
  split
  · exact le_rfl
  · next h => exact le_of_not_lt h

lemma tick_speed_nonneg (cfg : Config) (st : SimState) (h : st.running = true) :
    0 ≤ (tick cfg st).speed := by
  rw [tick_speed cfg st h]
  exact step_speed_nonneg cfg st

lemma radians_90 : radians 90 = Real.pi / 2 := by unfold radians; ring

lemma radians_0 : radians 0 = 0 := by unfold radians; ring

lemma sin_radians_90 : Real.sin (radians 90) = 1 := by
  rw [radians_90, Real.sin_pi_div_two]

lemma cos_radians_90 : Real.cos (radians 90) = 0 := by
  rw [radians_90, Real.cos_pi_div_two]

lemma sin_radians_0 : Real.sin (radians 0) = 0 := by
  rw [radians_0, Real.sin_zero]

lemma cos_radians_0 : Real.cos (radians 0) = 1 := by
  rw [radians_0, Real.cos_zero]

end IncRail

namespace IncRail

/-! ### Further helper lemmas shared by several results -/

lemma running_false_of_ne_true {st : SimState} (h : ¬ st.running = true) :
    st.running = false := by
  simpa using h

lemma run_speed_nonneg (cfg : Config) (st : SimState) (h : 0 ≤ st.speed) (n : ℕ) :
    0 ≤ (run cfg st n).speed := by
  induction n with
  | zero => simpa using h
  | succ n ih =>
    by_cases hr : (run cfg st n).running = true
    · rw [run_succ]; exact tick_speed_nonneg _ _ hr
    · rw [run_succ, tick_of_not_running _ _ (running_false_of_ne_true hr)]
      exact ih

lemma dt_nonneg : (0:ℝ) ≤ dt := by norm_num [dt]

lemma tick_losses_le (cfg : Config) (st : SimState) (hsp : 0 ≤ st.speed)
    (hm : 0 ≤ cfg.mass) (hg : 0 ≤ cfg.g) (h0 : 0 ≤ cfg.angle) (h90 : cfg.angle ≤ 90)
    (hrad : cfg.angle_rad = radians cfg.angle) :
    st.friction_loss ≤ (tick cfg st).friction_loss ∧
      st.drag_loss ≤ (tick cfg st).drag_loss := by
  by_cases hr : st.running = true
  · rw [tick_friction_loss _ _ hr, tick_drag_loss _ _ hr]
    have hf : 0 ≤ F_fric_of cfg * st.speed * dt :=
      mul_nonneg (mul_nonneg (F_fric_nonneg cfg hm hg h0 h90 hrad) hsp) dt_nonneg
    have hd : 0 ≤ F_drag_of st.speed * st.speed * dt :=
      mul_nonneg (mul_nonneg (F_drag_nonneg st.speed) hsp) dt_nonneg
    constructor <;> linarith
  · rw [tick_of_not_running _ _ (running_false_of_ne_true hr)]
    exact ⟨le_rfl, le_rfl⟩

lemma run_losses_mono (cfg : Config) (st : SimState) (hsp : 0 ≤ st.speed)
    (hm : 0 ≤ cfg.mass) (hg : 0 ≤ cfg.g) (h0 : 0 ≤ cfg.angle) (h90 : cfg.angle ≤ 90)
    (hrad : cfg.angle_rad = radians cfg.angle) {n m : ℕ} (hnm : n ≤ m) :
    (run cfg st n).friction_loss ≤ (run cfg st m).friction_loss ∧
      (run cfg st n).drag_loss ≤ (run cfg st m).drag_loss := by
  induction m with
  | zero => cases Nat.le_zero.mp hnm; exact ⟨le_rfl, le_rfl⟩
  | succ m ih =>
    rcases Nat.lt_succ_iff_lt_or_eq.mp (Nat.lt_succ_of_le hnm) with h | h
    · have step := tick_losses_le cfg (run cfg st m)
        (run_speed_nonneg cfg st hsp m) hm hg h0 h90 hrad
      have prev := ih (Nat.le_of_lt_succ h)
      exact ⟨prev.1.trans step.1, prev.2.trans step.2⟩
    · rw [h]; exact ⟨le_rfl, le_rfl⟩

/-! ### Claim theorems -/

/-- C9: a tick arriving while `running` is false — whether paused or
already stopped at the rail end — changes no component of the simulation
state and appends no sample: the loop body is an exact no-op (`if not
running: continue`), and it is a total function, so no error is ever
surfaced to the driver. -/
theorem tick_noop_when_paused (cfg : Config) (st : SimState)
    (h : st.running = false) : tick cfg st = st :=
  tick_of_not_running cfg st h

/-- Witness for C9 at a concrete paused state. -/
theorem tick_noop_when_paused_witness : tick initConfig initState = initState :=
  tick_noop_when_paused initConfig initState rfl

/-- C5: the speed is never negative.  A running tick clamps the
integrated speed to `max 0` (so its result is non-negative whatever the
previous speed was), a paused tick preserves the speed, and `reset`
installs the configured initial speed, which is non-negative for every
in-range configuration.  Hence every reachable state has `speed ≥ 0`. -/
theorem speed_nonneg_invariant (cfg : Config) (st : SimState) :
    (st.running = true → 0 ≤ (tick cfg st).speed) ∧
    (0 ≤ st.speed → 0 ≤ (tick cfg st).speed) ∧
    (0 ≤ cfg.initial_velocity → 0 ≤ (reset_simulation cfg st).speed) := by
  refine ⟨fun h => tick_speed_nonneg cfg st h, fun hsp => ?_, fun hv => hv⟩
  by_cases hr : st.running = true
  · exact tick_speed_nonneg cfg st hr
  · rw [tick_of_not_running cfg st (running_false_of_ne_true hr)]
    exact hsp

/-- Witness for C5: one running tick from the freshly started initial
state yields a non-negative speed. -/
theorem speed_nonneg_invariant_witness :
    0 ≤ (tick initConfig (toggle_running initState)).speed :=
  (speed_nonneg_invariant initConfig (toggle_running initState)).1 rfl

/-- C6: the cumulative losses are non-decreasing along every run, and a
running tick adds exactly `F_fric * speed * dt` resp. `F_drag * speed *
dt`, both computed from the pre-update speed; under the configuration
bounds (mass, gravity non-negative, angle in [0, 90] with `angle_rad`
kept consistent) and a non-negative starting speed these increments are
non-negative. -/
theorem losses_monotone (cfg : Config) (st : SimState) (hsp : 0 ≤ st.speed)
    (hm : 0 ≤ cfg.mass) (hg : 0 ≤ cfg.g) (h0 : 0 ≤ cfg.angle) (h90 : cfg.angle ≤ 90)
    (hrad : cfg.angle_rad = radians cfg.angle) :
    (∀ n m : ℕ, n ≤ m →
      (run cfg st n).friction_loss ≤ (run cfg st m).friction_loss ∧
      (run cfg st n).drag_loss ≤ (run cfg st m).drag_loss) ∧
    (st.running = true →
      (tick cfg st).friction_loss = st.friction_loss + F_fric_of cfg * st.speed * dt ∧
      (tick cfg st).drag_loss = st.drag_loss + F_drag_of st.speed * st.speed * dt) := by
  refine ⟨fun n m hnm => run_losses_mono cfg st hsp hm hg h0 h90 hrad hnm, fun hr => ?_⟩
  exact ⟨tick_friction_loss cfg st hr, tick_drag_loss cfg st hr⟩

/-- Witness for C6 at the initial configuration and state. -/
theorem losses_monotone_witness :
    (run initConfig initState 0).friction_loss ≤ (run initConfig initState 3).friction_loss ∧
    (run initConfig initState 0).drag_loss ≤ (run initConfig initState 3).drag_loss :=
  (losses_monotone initConfig initState le_rfl (by norm_num [initConfig])
    (by norm_num [initConfig]) (by norm_num [initConfig]) (by norm_num [initConfig])
    rfl).1 0 3 (by norm_num)

/-- C7: the friction force stored by a running tick is
`mu_sa * (mass * g_eff * cos angle_rad)` whenever `angle < 90`, and is
exactly `0` when `angle = 90` (vertical rail, no normal force). -/
theorem friction_force_formula (cfg : Config) (st : SimState) (h : st.running = true) :
    (cfg.angle < 90 →
      (tick cfg st).F_fric = mu_sa * (cfg.mass * g_eff cfg * Real.cos cfg.angle_rad)) ∧
    (cfg.angle = 90 → (tick cfg st).F_fric = 0) := by
  rw [tick_F_fric cfg st h]
  constructor
  · intro hlt
    unfold F_fric_of N_of
    rw [if_pos hlt]
  · intro heq
    unfold F_fric_of
    rw [if_neg (by rw [heq]; exact lt_irrefl _)]

/-- Witness for C7: at the initial 30-degree configuration the friction
of the first running tick has the stated closed form. -/
theorem friction_force_formula_witness :
    (tick initConfig (toggle_running initState)).F_fric =
      mu_sa * (initConfig.mass * g_eff initConfig * Real.cos initConfig.angle_rad) :=
  (friction_force_formula initConfig (toggle_running initState) rfl).1
    (by norm_num [initConfig])

/-- C3 (code bug): `reset_simulation` zeroes the clock, displacement and
losses, reinstalls the initial speed and clears every data array, but it
never assigns the `running` flag (the flag is listed in its `global`
statement and its docstring says the function pauses the simulation,
yet no assignment exists) — so a reset issued while the engine is
running leaves it running.  Evaluated here at such a failing input. -/
theorem reset_leaves_running_unchanged :
    (reset_simulation initConfig (toggle_running initState)).running = true ∧
    (reset_simulation initConfig (toggle_running initState)).elapsed_time = 0 ∧
    (reset_simulation initConfig (toggle_running initState)).s = 0 ∧
    (reset_simulation initConfig (toggle_running initState)).speed =
      initConfig.initial_velocity ∧
    (reset_simulation initConfig (toggle_running initState)).friction_loss = 0 ∧
    (reset_simulation initConfig (toggle_running initState)).drag_loss = 0 ∧
    (reset_simulation initConfig (toggle_running initState)).times = [] ∧
    (reset_simulation initConfig (toggle_running initState)).heights = [] ∧
    (reset_simulation initConfig (toggle_running initState)).speeds = [] ∧
    (reset_simulation initConfig (toggle_running initState)).gravities = [] ∧
    (∀ cfg : Config, ∀ st : SimState, (reset_simulation cfg st).running = st.running) :=
  ⟨rfl, rfl, rfl, rfl, rfl, rfl, rfl, rfl, rfl, rfl, fun _ _ => rfl⟩

/-- C4 counterexample: the initial-speed setter is not state-preserving —
`update_initial_velocity` assigns the live `speed` global (line 281), so
calling it with value 5 on the initial state (speed 0) changes
`speed_mps` immediately, refuting the claim that every setter leaves
`speed_mps` unchanged. -/
theorem initial_velocity_setter_mutates_speed_cex :
    (update_initial_velocity 5 initConfig initState).2.speed ≠ initState.speed ∧
    (update_initial_velocity 5 initConfig initState).2.speed = 5 ∧
    initState.speed = 0 := by
  refine ⟨?_, rfl, rfl⟩
  show (5:ℝ) ≠ 0
  norm_num

/-- C4 (amended): the angle, rail-length, gravity and mass setters leave
the whole simulation state unchanged; the initial-speed setter leaves
`elapsed_time`, `displacement`, both losses and the sample log unchanged
but overwrites `speed` with the new value. -/
theorem setters_frame_effect (v : ℝ) (cfg : Config) (st : SimState) :
    (update_angle v cfg st).2 = st ∧
    (update_length v cfg st).2 = st ∧
    (update_gravity v cfg st).2 = st ∧
    (update_mass v cfg st).2 = st ∧
    (update_initial_velocity v cfg st).2.elapsed_time = st.elapsed_time ∧
    (update_initial_velocity v cfg st).2.s = st.s ∧
    (update_initial_velocity v cfg st).2.friction_loss = st.friction_loss ∧
    (update_initial_velocity v cfg st).2.drag_loss = st.drag_loss ∧
    (update_initial_velocity v cfg st).2.times = st.times ∧
    (update_initial_velocity v cfg st).2.speed = v :=
  ⟨rfl, rfl, rfl, rfl, rfl, rfl, rfl, rfl, rfl, rfl⟩

end IncRail

namespace IncRail


/-- C2 counterexample: with the mass slider at 2 kg the effective gravity
actually used by the code (built from the module-load `rho_sphere`)
differs from the mass-derived `g_eff` of the spec, and the gravity-parallel
force stored by a running tick differs from the value the claim
prescribes. -/
theorem g_eff_ignores_mass_cex :
    g_eff cfgMass2 ≠ g_eff_spec cfgMass2 ∧
    (tick cfgMass2 (toggle_running initState)).Fg_par ≠
      cfgMass2.mass * g_eff_spec cfgMass2 * Real.sin cfgMass2.angle_rad := by
  have hgproj : cfgMass2.g = 9.81 := rfl
  have hcode : g_eff cfgMass2 = 9.81 * (1 - 1.225 * Real.pi / 750) := by
    unfold g_eff
    rw [buoy_ratio_eq, hgproj]
  have hspec : g_eff_spec cfgMass2 = 9.81 * (1 - 1.225 * Real.pi / 1500) := by
    unfold g_eff_spec rho_air
    rw [volume_eq, hgproj]
    show (9.81:ℝ) * (1 - 1.225 / ((2:ℝ) / (Real.pi / 750))) = _
    rw [div_div_eq_mul_div]
    ring
  have hne : g_eff cfgMass2 ≠ g_eff_spec cfgMass2 := by
    rw [hcode, hspec]
    intro h
    have := Real.pi_pos
    nlinarith
  refine ⟨hne, ?_⟩
  rw [tick_Fg_par cfgMass2 (toggle_running initState) rfl]
  unfold Fg_par_of
  have hsin : Real.sin cfgMass2.angle_rad = 1 := sin_radians_90
  rw [hsin, mul_one, mul_one]
  show cfgMass2.mass * g_eff cfgMass2 ≠ cfgMass2.mass * g_eff_spec cfgMass2
  intro h
  apply hne
  have h2 : cfgMass2.mass = 2 := rfl
  rw [h2] at h
  linarith

/-- C2 (amended): the effective gravity used by every running tick is
`g * (1 - rho_air / rho_sphere)` with `rho_sphere = mass0 / volume`
frozen at module load from the initial 1 kg mass: moving the mass slider
does not change it (only `g` is re-read each tick, so the gravity slider
does take effect). -/
theorem g_eff_uses_startup_density (cfg : Config) (st : SimState) (v : ℝ)
    (h : st.running = true) :
    (tick cfg st).Fg_par =
      cfg.mass * (cfg.g * (1 - rho_air / (mass0 / volume))) * Real.sin cfg.angle_rad ∧
    g_eff (update_mass v cfg st).1 = g_eff cfg ∧
    g_eff (update_gravity v cfg st).1 = v * (1 - rho_air / rho_sphere) := by
  refine ⟨?_, rfl, rfl⟩
  rw [tick_Fg_par cfg st h]
  rfl

/-- Witness for the amended theorem of C2 at a concrete running state. -/
theorem g_eff_uses_startup_density_witness :
    (tick cfgMass2 (toggle_running initState)).Fg_par =
      cfgMass2.mass * (cfgMass2.g * (1 - rho_air / (mass0 / volume))) *
        Real.sin cfgMass2.angle_rad ∧
    g_eff (update_mass 7 cfgMass2 (toggle_running initState)).1 = g_eff cfgMass2 ∧
    g_eff (update_gravity 7 cfgMass2 (toggle_running initState)).1 =
      7 * (1 - rho_air / rho_sphere) :=
  g_eff_uses_startup_density cfgMass2 (toggle_running initState) 7 rfl

end IncRail

namespace IncRail



lemma stFast_running : stFast.running = true := rfl

lemma stFast_speed : stFast.speed = 1000 := rfl

lemma stFast_s : stFast.s = 0 := rfl

lemma cfgFast_Fg_par : Fg_par_of cfgFast = 100 * (9.81 * (1 - 1.225 * Real.pi / 750)) := by
  unfold Fg_par_of g_eff
  rw [buoy_ratio_eq]
  have hm : cfgFast.mass = 100 := rfl
  have hg : cfgFast.g = 9.81 := rfl
  have hsin : Real.sin cfgFast.angle_rad = 1 := sin_radians_90
  rw [hm, hg, hsin, mul_one]

lemma cfgFast_F_fric : F_fric_of cfgFast = 0 := by
  unfold F_fric_of
  rw [if_neg]
  rw [show cfgFast.angle = (90:ℝ) from rfl]
  exact lt_irrefl _

lemma cfgFast_F_drag : F_drag_of stFast.speed = 2878.75 * Real.pi := by
  rw [stFast_speed]
  unfold F_drag_of area_cross Cd_sphere rho_air ball_radius
  ring

lemma cfgFast_acc : acceleration_of cfgFast stFast =
    (100 * (9.81 * (1 - 1.225 * Real.pi / 750)) - 2878.75 * Real.pi) / 100 := by
  unfold acceleration_of
  rw [cfgFast_Fg_par, cfgFast_F_fric, cfgFast_F_drag,
    show cfgFast.mass = (100:ℝ) from rfl]
  ring

lemma cfgFast_step_speed_pos : ¬ stFast.speed + acceleration_of cfgFast stFast * dt < 0 := by
  rw [stFast_speed, cfgFast_acc, show dt = (0.0025:ℝ) from rfl]
  push_neg
  nlinarith [Real.pi_gt_d2, Real.pi_lt_d2]

lemma cfgFast_step_s_gt_one : 1 < step_s cfgFast stFast := by
  unfold step_s step_speed
  rw [if_neg cfgFast_step_speed_pos, stFast_s, stFast_speed, cfgFast_acc,
    show dt = (0.0025:ℝ) from rfl]
  nlinarith [Real.pi_gt_d2, Real.pi_lt_d2]

/-- C1 counterexample: starting from a reset state under `cfgFast`
(reachable by Reset followed by Play), the first tick integrates the
displacement past the rail end, the engine stops, but `displacement_m`
is NOT clamped to `rail_length_m`: the stored displacement strictly
exceeds the rail length in the observable post-tick state. -/
theorem displacement_exceeds_rail_length_cex :
    cfgFast.rail_length < (tick cfgFast stFast).s ∧
    (tick cfgFast stFast).running = false := by
  have hover : ¬ step_s cfgFast stFast ≤ cfgFast.rail_length := by
    rw [show cfgFast.rail_length = (1:ℝ) from rfl]
    exact not_le.mpr cfgFast_step_s_gt_one
  constructor
  · rw [tick_s cfgFast stFast stFast_running,
      show cfgFast.rail_length = (1:ℝ) from rfl]
    exact cfgFast_step_s_gt_one
  · exact tick_running_overshoot cfgFast stFast stFast_running hover

/-- C1 (amended): on a running tick the displacement always advances to
`s + speed * dt` (post-clamp speed) and is never reassigned afterwards:
if it stays within the rail the engine keeps running, and if it strictly
exceeds the rail length the engine stops while the displacement keeps
its overshoot value — bounded by `rail_length + speed * dt` when the
pre-tick displacement was within the rail.  (Reaching the end exactly
does not stop the engine: the boundary test is strict.) -/
theorem boundary_no_clamp (cfg : Config) (st : SimState) (h : st.running = true) :
    (tick cfg st).s = st.s + (tick cfg st).speed * dt ∧
    ((tick cfg st).s ≤ cfg.rail_length → (tick cfg st).running = true) ∧
    (cfg.rail_length < (tick cfg st).s → (tick cfg st).running = false) ∧
    (st.s ≤ cfg.rail_length →
      (tick cfg st).s ≤ cfg.rail_length + (tick cfg st).speed * dt) := by
  have hs := tick_s cfg st h
  have hv := tick_speed cfg st h
  refine ⟨?_, ?_, ?_, ?_⟩
  · rw [hs, hv]; rfl
  · intro hle
    exact tick_running_inbound cfg st h (hs ▸ hle)
  · intro hgt
    exact tick_running_overshoot cfg st h (not_le.mpr (hs ▸ hgt))
  · intro hsle
    rw [hs, hv]
    unfold step_s
    linarith [hsle]

/-- Witness for the amended theorem of C1 at a concrete running state. -/
theorem boundary_no_clamp_witness :
    (tick initConfig (toggle_running initState)).s =
      (toggle_running initState).s + (tick initConfig (toggle_running initState)).speed * dt ∧
    ((tick initConfig (toggle_running initState)).s ≤ initConfig.rail_length →
      (tick initConfig (toggle_running initState)).running = true) ∧
    (initConfig.rail_length < (tick initConfig (toggle_running initState)).s →
      (tick initConfig (toggle_running initState)).running = false) ∧
    ((toggle_running initState).s ≤ initConfig.rail_length →
      (tick initConfig (toggle_running initState)).s ≤
        initConfig.rail_length + (tick initConfig (toggle_running initState)).speed * dt) :=
  boundary_no_clamp initConfig (toggle_running initState) rfl

end IncRail

namespace IncRail

lemma F_drag_of_zero : F_drag_of 0 = 0 := by
  unfold F_drag_of
  ring

lemma angle_zero_Fg_par (cfg : Config) (hang : cfg.angle = 0)
    (hrad : cfg.angle_rad = radians cfg.angle) : Fg_par_of cfg = 0 := by
  unfold Fg_par_of
  rw [hrad, hang, sin_radians_0, mul_zero]

lemma angle_zero_step (cfg : Config) (hang : cfg.angle = 0)
    (hrad : cfg.angle_rad = radians cfg.angle) (hm : 0 < cfg.mass) (hg : 0 ≤ cfg.g)
    (hL : 0 ≤ cfg.rail_length) (u : SimState) (husp : u.speed = 0) (hus : u.s = 0)
    (hur : u.running = true) :
    (tick cfg u).speed = 0 ∧ (tick cfg u).s = 0 ∧ (tick cfg u).running = true ∧
      (tick cfg u).Fg_par = 0 := by
  have hfric : 0 ≤ F_fric_of cfg :=
    F_fric_nonneg cfg hm.le hg (by rw [hang]) (by rw [hang]; norm_num) hrad
  have hnum : Fg_par_of cfg - F_fric_of cfg - F_drag_of u.speed ≤ 0 := by
    rw [angle_zero_Fg_par cfg hang hrad, husp, F_drag_of_zero]
    linarith
  have hA : acceleration_of cfg u ≤ 0 := by
    unfold acceleration_of
    exact div_nonpos_iff.mpr (Or.inr ⟨hnum, hm.le⟩)
  have hAd : acceleration_of cfg u * dt ≤ 0 :=
    mul_nonpos_iff.mpr (Or.inr ⟨hA, dt_nonneg⟩)
  have hv : step_speed cfg u = 0 := by
    unfold step_speed
    split
    · rfl
    · next hnlt => rw [husp]; linarith [le_of_not_lt hnlt, husp ▸ hAd]
  have hss : step_s cfg u = 0 := by
    unfold step_s
    rw [hus, hv, zero_mul, zero_add]
  have hbr : step_s cfg u ≤ cfg.rail_length := by rw [hss]; exact hL
  refine ⟨?_, ?_, tick_running_inbound cfg u hur hbr, ?_⟩
  · rw [tick_speed cfg u hur, hv]
  · rw [tick_s cfg u hur, hss]
  · rw [tick_Fg_par cfg u hur, angle_zero_Fg_par cfg hang hrad]

/-- C8: on a horizontal rail (`angle = 0`) with starting speed 0 the
gravity-parallel force is 0, the friction-induced negative net force is
clamped away, and for every number of ticks the speed and displacement
stay exactly 0 while the engine keeps running (the termination branch is
never reached). -/
theorem angle_zero_no_motion (cfg : Config) (st : SimState)
    (hang : cfg.angle = 0) (hrad : cfg.angle_rad = radians cfg.angle)
    (hm : 0 < cfg.mass) (hg : 0 ≤ cfg.g) (hL : 0 ≤ cfg.rail_length)
    (hsp : st.speed = 0) (hs : st.s = 0) (hr : st.running = true) :
    Fg_par_of cfg = 0 ∧
    ∀ k : ℕ, (run cfg st k).speed = 0 ∧ (run cfg st k).s = 0 ∧
      (run cfg st k).running = true ∧ (1 ≤ k → (run cfg st k).Fg_par = 0) := by
  refine ⟨angle_zero_Fg_par cfg hang hrad, fun k => ?_⟩
  induction k with
  | zero => exact ⟨hsp, hs, hr, fun h => absurd h (by norm_num)⟩
  | succ k ih =>
    obtain ⟨ihsp, ihs, ihr, -⟩ := ih
    have step := angle_zero_step cfg hang hrad hm hg hL (run cfg st k) ihsp ihs ihr
    exact ⟨step.1, step.2.1, step.2.2.1, fun _ => step.2.2.2⟩

/-- Witness for C8: three ticks on the concrete horizontal configuration. -/
theorem angle_zero_no_motion_witness :
    (run { angle := 0, angle_rad := radians 0, rail_length := 10, g := 9.81,
           mass := 1, initial_velocity := 0 : Config }
         (toggle_running initState) 3).speed = 0 ∧
    (run { angle := 0, angle_rad := radians 0, rail_length := 10, g := 9.81,
           mass := 1, initial_velocity := 0 : Config }
         (toggle_running initState) 3).s = 0 ∧
    (run { angle := 0, angle_rad := radians 0, rail_length := 10, g := 9.81,
           mass := 1, initial_velocity := 0 : Config }
         (toggle_running initState) 3).running = true := by
  have h := (angle_zero_no_motion
    { angle := 0, angle_rad := radians 0, rail_length := 10, g := 9.81,
      mass := 1, initial_velocity := 0 : Config }
    (toggle_running initState) rfl rfl (by norm_num) (by norm_num) (by norm_num)
    rfl rfl rfl).2 3
  exact ⟨h.1, h.2.1, h.2.2.1⟩

end IncRail

namespace IncRail

lemma dt_eq : dt = (0.0025:ℝ) := rfl

lemma cadence_invariant (cfg : Config) (st : SimState)
    (ht : st.t = 0) (hl : st.last_record_time = -0.1) (htimes : st.times = [])
    (N : ℕ) (hrun : (run cfg st N).running = true) :
    ∀ k : ℕ, 1 ≤ k → k ≤ N →
      (run cfg st k).t = (k : ℝ) * dt ∧
      (run cfg st k).elapsed_time = (k : ℝ) * dt ∧
      (run cfg st k).last_record_time = ((40 * ((k - 1) / 40) + 1 : ℕ) : ℝ) * dt ∧
      (run cfg st k).times.length = (k - 1) / 40 + 1 := by
  intro k
  induction k with
  | zero => intro h1 _; exact absurd h1 (by norm_num)
  | succ k ih =>
    intro h1 hkN
    by_cases hk0 : k = 0
    · subst hk0
      have hur : st.running = true := by
        have := run_running_of_le cfg st (Nat.zero_le N) hrun
        simpa using this
      have hnext : (run cfg st 1).running = true :=
        run_running_of_le cfg st hkN hrun
      have hbr : step_s cfg st ≤ cfg.rail_length := by
        by_contra hnb
        have hfalse := tick_running_overshoot cfg st hur hnb
        rw [run_succ, run_zero] at hnext
        rw [hfalse] at hnext
        exact absurd hnext (by simp)
      have hc : st.t + dt - st.last_record_time ≥ 0.1 := by
        rw [ht, hl, dt_eq]; norm_num
      have helap := tick_elapsed_inbound cfg st hur hbr
      have hlast := tick_last_record_inbound cfg st hur hbr
      have hlen := tick_times_length_inbound cfg st hur hbr
      rw [run_succ, run_zero]
      refine ⟨?_, ?_, ?_, ?_⟩
      · rw [helap.2, ht]; norm_num
      · rw [helap.1, ht]; norm_num
      · rw [hlast, if_pos hc, ht]; norm_num
      · rw [hlen, if_pos hc, htimes]; norm_num
    · have hk1 : 1 ≤ k := Nat.one_le_iff_ne_zero.mpr hk0
      obtain ⟨iht, ihe, ihl, ihlen⟩ := ih hk1 (le_trans (Nat.le_succ k) hkN)
      have hur : (run cfg st k).running = true :=
        run_running_of_le cfg st (le_trans (Nat.le_succ k) hkN) hrun
      have hnext : (run cfg st (k + 1)).running = true :=
        run_running_of_le cfg st hkN hrun
      have hbr : step_s cfg (run cfg st k) ≤ cfg.rail_length := by
        by_contra hnb
        have hfalse := tick_running_overshoot cfg (run cfg st k) hur hnb
        rw [run_succ] at hnext
        rw [hfalse] at hnext
        exact absurd hnext (by simp)
      have helap := tick_elapsed_inbound cfg (run cfg st k) hur hbr
      have hlast := tick_last_record_inbound cfg (run cfg st k) hur hbr
      have hlen := tick_times_length_inbound cfg (run cfg st k) hur hbr
      have hqr : 40 * ((k - 1) / 40) + (k - 1) % 40 = k - 1 := Nat.div_add_mod (k - 1) 40
      have hrlt : (k - 1) % 40 < 40 := Nat.mod_lt _ (by norm_num)
      have hkeq : k = 40 * ((k - 1) / 40) + (k - 1) % 40 + 1 := by omega
      have hkR : (k : ℝ) = 40 * (((k - 1) / 40 : ℕ) : ℝ) + (((k - 1) % 40 : ℕ) : ℝ) + 1 := by
        exact_mod_cast congrArg (fun n : ℕ => (n : ℝ)) hkeq
      have hcastl : ((40 * ((k - 1) / 40) + 1 : ℕ) : ℝ) =
          40 * (((k - 1) / 40 : ℕ) : ℝ) + 1 := by push_cast; ring
      by_cases hr39 : (k - 1) % 40 = 39
      · have hrR : (((k - 1) % 40 : ℕ) : ℝ) = 39 := by rw [hr39]; norm_num
        have hc : (run cfg st k).t + dt - (run cfg st k).last_record_time ≥ 0.1 := by
          rw [iht, ihl, hcastl, hkR, hrR, dt_eq]
          linarith
        rw [run_succ]
        refine ⟨?_, ?_, ?_, ?_⟩
        · rw [helap.2, iht]; push_cast; ring
        · rw [helap.1, iht]; push_cast; ring
        · rw [hlast, if_pos hc, iht]
          have hdiv : 40 * ((k + 1 - 1) / 40) + 1 = 40 * ((k - 1) / 40) + 41 := by omega
          rw [hdiv, hkR]
          push_cast
          rw [dt_eq]
          linarith [hrR]
        · rw [hlen, if_pos hc, ihlen]
          omega
      · have hrle : (k - 1) % 40 ≤ 38 := by omega
        have hrR : (((k - 1) % 40 : ℕ) : ℝ) ≤ 38 := by exact_mod_cast hrle
        have hc : ¬ (run cfg st k).t + dt - (run cfg st k).last_record_time ≥ 0.1 := by
          rw [iht, ihl, hcastl, hkR, dt_eq]
          push_neg
          linarith
        rw [run_succ]
        refine ⟨?_, ?_, ?_, ?_⟩
        · rw [helap.2, iht]; push_cast; ring
        · rw [helap.1, iht]; push_cast; ring
        · rw [hlast, if_neg hc, ihl]
          have hdiv : 40 * ((k + 1 - 1) / 40) + 1 = 40 * ((k - 1) / 40) + 1 := by omega
          rw [hdiv]
        · rw [hlen, if_neg hc, ihlen]
          omega

end IncRail

namespace IncRail


/-- C10: starting from a reset-and-played state, after `N` ticks that all
stay within the rail (equivalently: the engine is still running), the
sample log holds `(N-1)/40 + 1` regular rows; with `T = N * dt` this
count lies between `floor(T / 0.1)` and `floor(T / 0.1) + 1`, i.e.
within ±1 of `floor(T / 0.1)`.  Moreover a tick appends a regular row
exactly when `elapsed_time - last_record_time ≥ 0.1` holds at its
sampling step. -/
theorem sampling_cadence (cfg : Config) (st : SimState)
    (ht : st.t = 0) (he : st.elapsed_time = 0) (hl : st.last_record_time = -0.1)
    (htimes : st.times = []) (N : ℕ) (hN1 : 1 ≤ N)
    (hrun : (run cfg st N).running = true) :
    (run cfg st N).times.length = (N - 1) / 40 + 1 ∧
    Nat.floor (((N : ℝ) * dt) / (0.1 : ℝ)) ≤ (run cfg st N).times.length ∧
    (run cfg st N).times.length ≤ Nat.floor (((N : ℝ) * dt) / (0.1 : ℝ)) + 1 ∧
    ∀ (c : Config) (u : SimState),
      ((recordRegular c u).times.length = u.times.length + 1 ↔
        u.elapsed_time - u.last_record_time ≥ 0.1) := by
  obtain ⟨-, -, -, hlen⟩ := cadence_invariant cfg st ht hl htimes N hrun N hN1 le_rfl
  have hfloor : Nat.floor (((N : ℝ) * dt) / (0.1 : ℝ)) = N / 40 := by
    have h1 : ((N : ℝ) * dt) / (0.1 : ℝ) = (N : ℝ) / ((40 : ℕ) : ℝ) := by
      rw [dt_eq]; norm_num; ring
    rw [h1, Nat.floor_div_nat, Nat.floor_natCast]
  refine ⟨hlen, ?_, ?_, ?_⟩
  · rw [hfloor, hlen]; omega
  · rw [hfloor, hlen]; omega
  · intro c u
    by_cases hc : u.elapsed_time - u.last_record_time ≥ 0.1
    · rw [recordRegular_times_length, if_pos hc]
      exact ⟨fun _ => hc, fun _ => rfl⟩
    · rw [recordRegular_times_length, if_neg hc]
      exact ⟨fun habs => absurd habs (by omega), fun hcc => absurd hcc hc⟩

/-- Witness for C10: one tick on the horizontal configuration records
exactly one regular sample. -/
theorem sampling_cadence_witness :
    (run cfgFlat (toggle_running initState) 1).times.length = 1 := by
  have hrun1 : (run cfgFlat (toggle_running initState) 1).running = true := by
    rw [run_succ, run_zero]
    exact (angle_zero_step cfgFlat rfl rfl (by norm_num [cfgFlat])
      (by norm_num [cfgFlat]) (by norm_num [cfgFlat])
      (toggle_running initState) rfl rfl rfl).2.2.1
  have h := sampling_cadence cfgFlat (toggle_running initState)
    rfl rfl rfl rfl 1 le_rfl hrun1
  simpa using h.1

end IncRail
